import Mathlib

/-!
# GraphCut front-end: session state machine and pixel conversions

A shallow embedding of `src/mainwindow.cpp` (the pointer-event filter, the
edit and view-mode slots, the float/byte raster conversions and the export
path) and of `src/Color.cpp` (`distance2`).

Conventions of the embedding
* The fields of `MainWindow` that the handlers read or write are gathered in
  the record `MainWindow`; a handler is a function from the record to the new
  record together with the list of calls it makes on the segmentation engine
  `mGrabCut`, in program order.
* The engine itself (`GrabCut.h`) is an external collaborator: a call to it is
  recorded, not interpreted.  No handler looks at a value returned by a
  mutating engine call.
* Widget coordinates are mathematical integers (`Int`); pointer positions are
  far away from the limits of a 32-bit `int`.
* `mImgView->update()` only schedules a repaint and leaves the record alone.
-/

namespace GraphCutQt

/-- The enumeration `MainWindow::ViewMode` (without the bound `VM_MAX`). -/
inductive ViewMode where
  | VM_IMAGE
  | VM_GMM_MASK
  | VM_NLINK_MASK
  | VM_TLINK_MASK
  deriving DecidableEq, Repr

/-- The enumeration `MainWindow::SelectionMode`. -/
inductive SelectionMode where
  | SM_NONE
  | SM_RECT
  | SM_PAINT_BG
  | SM_PAINT_FG
  deriving DecidableEq, Repr

/-- A `QPoint`: integer widget coordinates. -/
structure QPoint where
  x : Int
  y : Int
  deriving DecidableEq, Repr

/-- The trimap labels of the engine; the window hands only the foreground
and background labels to `setTrimap`. -/
inductive TrimapValue where
  | TrimapUnknown
  | TrimapForeground
  | TrimapBackground
  deriving DecidableEq, Repr

/-- One call made on the engine object `mGrabCut`. The first five are the
mutating operations (`initializeRect` stands for `GrabCut::initialize`, a
reserved word here), the last four the read accessors used to refresh the
displayed rasters. -/
inductive EngineCall where
  | initializeRect (x1 y1 x2 y2 : Int)
  | fitGMMs
  | setTrimap (x1 y1 x2 y2 : Int) (t : TrimapValue)
  | refineOnce
  | buildImages
  | getAlphaImage
  | getNLinksImage
  | getTLinksImage
  | getGMMsImage
  deriving DecidableEq, Repr

/-- The mutating engine operations; the four buffer getters are not. -/
def EngineCall.isMutating : EngineCall → Bool
  | .getAlphaImage => false
  | .getNLinksImage => false
  | .getTLinksImage => false
  | .getGMMsImage => false
  | _ => true

/-- The mutating engine operations of a call sequence, in order. -/
def mutatingCalls (calls : List EngineCall) : List EngineCall :=
  calls.filter EngineCall.isMutating

/-- The actions of the window that reach the two slots modelled here:
the four entries of `mViewModeActs` (indexed by the view mode they select),
the five members of `mEditActGroup`, and any other action. -/
inductive QAction where
  | mViewModeActs (i : ViewMode)
  | mRefineAct
  | mRefineOnceAct
  | mFitGMMsAct
  | mAbortRefiningAct
  | mShowMaskAct
  | otherAct
  deriving DecidableEq, Repr

/-- The fields of `MainWindow` used by the handlers. `imageNull` stands for
`mImages[VM_IMAGE].isNull()` and `mShowMaskActChecked` for
`mShowMaskAct->isChecked()`. -/
structure MainWindow where
  imageNull : Bool
  mLastPos : QPoint
  mStartPos : QPoint
  mEndPos : QPoint
  mViewMode : ViewMode
  mPaintingPoses : List QPoint
  mSelectionMode : SelectionMode
  mRefining : Bool
  mInitialized : Bool
  mShowMask : Bool
  mShowMaskActChecked : Bool
  deriving DecidableEq, Repr

/-- The events seen by the filter installed on the image view. The mouse
events carry `buttons()` (a bit mask) and `pos()`. -/
inductive QEvent where
  | Paint
  | MouseButtonPress (buttons : Nat) (pos : QPoint)
  | MouseMove (buttons : Nat) (pos : QPoint)
  | MouseButtonRelease (buttons : Nat) (pos : QPoint)
  | OtherEvent
  deriving DecidableEq, Repr

/-- The bit `Qt::LeftButton` of a button mask. -/
def LeftButton : Nat := 1

/-- The test `me->buttons() & Qt::LeftButton`. -/
def leftHeld (buttons : Nat) : Bool := (buttons &&& LeftButton) != 0

/-- The function `MainWindow::initParameters`: the defaults set on construction and on
every load. -/
def initParameters (w : MainWindow) : MainWindow :=
  { w with
    mViewMode := ViewMode.VM_IMAGE
    mSelectionMode := SelectionMode.SM_NONE
    mRefining := false
    mInitialized := false
    mShowMask := false }

/-- The function `MainWindow::updateImages`: the alpha buffer is read only when the mask is
shown, the three diagnostic buffers always. -/
def updateImages (w : MainWindow) : List EngineCall :=
  (if w.mShowMask then [EngineCall.getAlphaImage] else []) ++
    [EngineCall.getNLinksImage, EngineCall.getTLinksImage, EngineCall.getGMMsImage]

/-- The loop of the release branch: one `setTrimap` per recorded position,
on the square of radius 2 around it. -/
def paintTrimap (mode : SelectionMode) (poses : List QPoint) : List EngineCall :=
  poses.map fun pt =>
    EngineCall.setTrimap (pt.x - 2) (pt.y - 2) (pt.x + 2) (pt.y + 2)
      (if mode = SelectionMode.SM_PAINT_FG then TrimapValue.TrimapForeground
       else TrimapValue.TrimapBackground)

/-- The function `MainWindow::eventFilter` for the image view: the new window fields and
the engine calls made, in order. -/
def eventFilter (w : MainWindow) (e : QEvent) : MainWindow × List EngineCall :=
  if e = QEvent.Paint then (w, [])
  else if w.imageNull then (w, [])
  else
    match e with
    | QEvent.MouseButtonPress buttons pos =>
      if w.mInitialized then
        let mode := if leftHeld buttons then SelectionMode.SM_PAINT_FG
                    else SelectionMode.SM_PAINT_BG
        ({ w with mPaintingPoses := [pos], mSelectionMode := mode }, [])
      else if leftHeld buttons then
        ({ w with mStartPos := pos, mLastPos := pos,
                  mSelectionMode := SelectionMode.SM_RECT }, [])
      else (w, [])
    | QEvent.MouseMove _ pos =>
      let w1 := { w with mLastPos := pos }
      if w1.mInitialized then
        ({ w1 with mPaintingPoses := w1.mPaintingPoses ++ [w1.mLastPos] }, [])
      else (w1, [])
    | QEvent.MouseButtonRelease _ pos =>
      let w1 := { w with mEndPos := pos }
      if w1.mInitialized then
        let w2 := { w1 with mPaintingPoses := w1.mPaintingPoses ++ [w1.mEndPos] }
        let calls := paintTrimap w2.mSelectionMode w2.mPaintingPoses ++
          [EngineCall.refineOnce, EngineCall.buildImages]
        let w3 := { w2 with mSelectionMode := SelectionMode.SM_NONE }
        (w3, calls ++ updateImages w3)
      else
        let calls := [EngineCall.initializeRect w1.mStartPos.x w1.mStartPos.y
                        w1.mEndPos.x w1.mEndPos.y, EngineCall.fitGMMs]
        let w2 := { w1 with mSelectionMode := SelectionMode.SM_NONE,
                            mInitialized := true, mShowMask := true,
                            mShowMaskActChecked := true }
        (w2, calls ++ updateImages w2)
    | _ => (w, [])

/-- A sequence of events handled one after the other; the engine calls are
concatenated in order. -/
def runEvents (w : MainWindow) : List QEvent → MainWindow × List EngineCall
  | [] => (w, [])
  | e :: es =>
    let r := eventFilter w e
    let r2 := runEvents r.1 es
    (r2.1, r.2 ++ r2.2)

/-- A whole gesture: a press, any number of moves, a release. -/
def gesture (b0 : Nat) (p0 : QPoint) (moves : List (Nat × QPoint)) (b1 : Nat)
    (p1 : QPoint) : List QEvent :=
  QEvent.MouseButtonPress b0 p0 ::
    (moves.map (fun m => QEvent.MouseMove m.1 m.2) ++ [QEvent.MouseButtonRelease b1 p1])

/-- A newly constructed window (`init`): no image, the defaults of
`initParameters`, no recorded position. -/
def newWindow : MainWindow :=
  initParameters
    { imageNull := true
      mLastPos := ⟨0, 0⟩
      mStartPos := ⟨0, 0⟩
      mEndPos := ⟨0, 0⟩
      mViewMode := ViewMode.VM_IMAGE
      mPaintingPoses := []
      mSelectionMode := SelectionMode.SM_NONE
      mRefining := false
      mInitialized := false
      mShowMask := false
      mShowMaskActChecked := false }

/-- A freshly loaded session: a first image loaded into a new window
(`open`, whose `initSystem` runs `initParameters` again). -/
def freshSession : MainWindow :=
  initParameters { newWindow with imageNull := false }

/-- A session in the middle of a foreground stroke: the rectangle gesture
(10,10)-(50,50) was made and the left button is pressed at (20,20). -/
def strokeSession : MainWindow :=
  (runEvents freshSession
    (gesture LeftButton ⟨10, 10⟩ [(LeftButton, ⟨50, 50⟩)] 0 ⟨50, 50⟩ ++
      [QEvent.MouseButtonPress LeftButton ⟨20, 20⟩])).1

/-- The function `MainWindow::triggerEditAct`, the slot of the edit action group. The
second test of `mRefineAct` is in the source as written. -/
def triggerEditAct (w : MainWindow) (act : QAction) : MainWindow × List EngineCall :=
  if w.imageNull then (w, [])
  else
    let r : MainWindow × List EngineCall :=
      if act = QAction.mRefineOnceAct then (w, [EngineCall.refineOnce])
      else if act = QAction.mRefineAct then ({ w with mRefining := true }, [])
      else if act = QAction.mFitGMMsAct then (w, [EngineCall.fitGMMs])
      else if act = QAction.mRefineAct then ({ w with mRefining := false }, [])
      else if act = QAction.mShowMaskAct then
        ({ w with mShowMask := w.mShowMaskActChecked }, [])
      else (w, [])
    (r.1, r.2 ++ updateImages r.1)

/-- The indices `0 .. VM_MAX-1` scanned by `changeViewModeAct`. -/
def viewModes : List ViewMode :=
  [ViewMode.VM_IMAGE, ViewMode.VM_GMM_MASK, ViewMode.VM_NLINK_MASK, ViewMode.VM_TLINK_MASK]

/-- The function `MainWindow::changeViewModeAct`, the slot of the view-mode action group:
the first index whose action is `act` becomes the view mode. It makes no
engine call. -/
def changeViewModeAct (w : MainWindow) (act : QAction) : MainWindow × List EngineCall :=
  match viewModes.find? (fun i => act = QAction.mViewModeActs i) with
  | some i => ({ w with mViewMode := i }, [])
  | none => (w, [])

/-- What reaches a session: an event on the image view, or a triggered action
of the edit group or of the view-mode group. -/
inductive Input where
  | event (e : QEvent)
  | editAct (act : QAction)
  | viewModeAct (act : QAction)
  deriving DecidableEq, Repr

/-- One input handled. A checkable action (`mShowMaskAct`) has its checked
state flipped by Qt before its group emits `triggered`. -/
def step (w : MainWindow) : Input → MainWindow × List EngineCall
  | Input.event e => eventFilter w e
  | Input.editAct act =>
    if act = QAction.mShowMaskAct then
      triggerEditAct { w with mShowMaskActChecked := !w.mShowMaskActChecked } act
    else triggerEditAct w act
  | Input.viewModeAct act => changeViewModeAct w act

/-- The window after a sequence of inputs. -/
def run (w : MainWindow) (inputs : List Input) : MainWindow :=
  inputs.foldl (fun v i => (step v i).1) w

/-- The square of radius 2 around a recorded position, with a label: the
trimap update of a correction stroke as the specification words it. -/
def squareUpdate (label : TrimapValue) (pt : QPoint) : EngineCall :=
  EngineCall.setTrimap (pt.x - 2) (pt.y - 2) (pt.x + 2) (pt.y + 2) label

/-- Modelled from the spec: the engine header `GrabCut.h` is not among the
sources. The specification says that `initialize(x0,y0,x1,y1)` fails if the
rectangle is degenerate (zero width or height) or out of the bounds of an
image of the given width and height. -/
def initializeFails (width height x0 y0 x1 y1 : Int) : Bool :=
  decide (x0 = x1 ∨ y0 = y1 ∨
    min x0 x1 < 0 ∨ min y0 y1 < 0 ∨ width ≤ max x0 x1 ∨ height ≤ max y0 y1)

/-- The normalized rectangle of the specification: corners (min,min) and
(max,max) of the two given corners. -/
def normalizedRect (s e : QPoint) : Int × Int × Int × Int :=
  (min s.x e.x, min s.y e.y, max s.x e.x, max s.y e.y)

/-- The arguments of the `initialize` calls in a call sequence. -/
def initializeArgs : List EngineCall → List (Int × Int × Int × Int)
  | [] => []
  | EngineCall.initializeRect a b c d :: cs => (a, b, c, d) :: initializeArgs cs
  | _ :: cs => initializeArgs cs

/-- What holds of the recorded positions in every reachable session: none is
recorded before the session is initialized, a rectangle is dragged only
before it is, and a stroke in progress has its press position recorded in an
initialized session. -/
def PosesInv (w : MainWindow) : Prop :=
  (w.mInitialized = false → w.mPaintingPoses = []) ∧
  (w.mSelectionMode = SelectionMode.SM_RECT → w.mInitialized = false) ∧
  (w.mSelectionMode = SelectionMode.SM_PAINT_FG ∨
      w.mSelectionMode = SelectionMode.SM_PAINT_BG →
    w.mInitialized = true ∧ w.mPaintingPoses ≠ [])

/-! ## Rasters and channel conversions

`GrabCutNS::Real` (declared in `Global.h`, not among the sources) is a
parameter `R`: an ordered field with a floor function. Arithmetic on it is
exact; the rounding of a machine floating-point type is not modelled. A
`QRgb` is the 32-bit word `0xAARRGGBB` as a natural number. -/

/-- A raster: `Image<T>` of the engine and `QImage` alike, as far as
`width()`, `height()` and the pixel at (x,y) go. -/
structure Image (α : Type) where
  width : Nat
  height : Nat
  px : Nat → Nat → α

/-- The class `GrabCutNS::Color`: three channels of type `Real`. -/
structure Color (R : Type) where
  r : R
  g : R
  b : R

/-- The function `GrabCutNS::distance2` of `Color.cpp`. -/
def distance2 {R : Type} [CommRing R] (c1 c2 : Color R) : R :=
  ((c1.r - c2.r) * (c1.r - c2.r) + (c1.g - c2.g) * (c1.g - c2.g)
    + (c1.b - c2.b) * (c1.b - c2.b))

/-- The conversion `static_cast<int>(v)`: truncation toward zero. -/
def truncToInt {R : Type} [LinearOrderedField R] [FloorRing R] (v : R) : Int :=
  if 0 ≤ v then Int.floor v else Int.ceil v

/-- The channel conversion of the `copy_..._to_QImage` functions:
`static_cast<int>(v * 255.0f)`. -/
def channelToByte {R : Type} [LinearOrderedField R] [FloorRing R] (v : R) : Int :=
  truncToInt (v * 255)

/-- The channel conversion of `create_image_array_from_QImage`:
`static_cast<Real>(b / 255.0f)`. -/
def byteToChannel {R : Type} [LinearOrderedField R] (b : Nat) : R :=
  (b : R) / 255

/-- The masking `v & 0xff` of an `int`. -/
def lowByte (v : Int) : Nat := (v % 256).toNat

/-- The Qt function `qRgba(r, g, b, a)`. -/
def qRgba (r g b a : Int) : Nat :=
  lowByte a * 2 ^ 24 + lowByte r * 2 ^ 16 + lowByte g * 2 ^ 8 + lowByte b

/-- The Qt function `qRgb(r, g, b)`: opaque. -/
def qRgb (r g b : Int) : Nat :=
  255 * 2 ^ 24 + lowByte r * 2 ^ 16 + lowByte g * 2 ^ 8 + lowByte b

/-- The Qt function `qAlpha`. -/
def qAlpha (c : Nat) : Nat := (c / 2 ^ 24) % 256

/-- The Qt function `qRed`. -/
def qRed (c : Nat) : Nat := (c / 2 ^ 16) % 256

/-- The Qt function `qGreen`. -/
def qGreen (c : Nat) : Nat := (c / 2 ^ 8) % 256

/-- The Qt function `qBlue`. -/
def qBlue (c : Nat) : Nat := c % 256

/-- The assignment to the pixel at (x,y). -/
def setPixel {α : Type} (img : Image α) (x y : Nat) (c : α) : Image α :=
  { img with px := fun i j => if i = x ∧ j = y then c else img.px i j }

/-- The nested loop `for y < h: for x < w: body`, threading the raster that
the body writes. -/
def forEachPixel {β : Type} (w h : Nat) (body : β → Nat → Nat → β) (init : β) : β :=
  (List.range h).foldl
    (fun acc y => (List.range w).foldl (fun acc2 x => body acc2 x y) acc) init

/-- The function `create_image_array_from_QImage`: a new array of the size of the image,
each pixel the three colour channels divided by 255. -/
def create_image_array_from_QImage {R : Type} [LinearOrderedField R]
    (img : Image Nat) : Image (Color R) :=
  forEachPixel img.width img.height
    (fun arr x y =>
      let clr := img.px x y
      setPixel arr x y
        ⟨byteToChannel (qRed clr), byteToChannel (qGreen clr), byteToChannel (qBlue clr)⟩)
    ⟨img.width, img.height, fun _ _ => ⟨0, 0, 0⟩⟩

/-- The function `copy_image_array_to_QImage` for an array of colours. -/
def copy_image_array_to_QImage {R : Type} [LinearOrderedField R] [FloorRing R]
    (imgArr : Image (Color R)) (qImg : Image Nat) : Image Nat :=
  forEachPixel imgArr.width imgArr.height
    (fun q x y =>
      let r := channelToByte (imgArr.px x y).r
      let g := channelToByte (imgArr.px x y).g
      let b := channelToByte (imgArr.px x y).b
      setPixel q x y (qRgb r g b))
    qImg

/-- The overload of `copy_image_array_to_QImage` for an array of reals (a
grey raster). -/
def copy_real_array_to_QImage {R : Type} [LinearOrderedField R] [FloorRing R]
    (imgArr : Image R) (qImg : Image Nat) : Image Nat :=
  forEachPixel imgArr.width imgArr.height
    (fun q x y =>
      let luminance := channelToByte (imgArr.px x y)
      setPixel q x y (qRgb luminance luminance luminance))
    qImg

/-- The function `copy_alpha_array_to_QImage`: with `mask` the pixel becomes black with
the alpha byte as opacity; without, a pixel whose alpha byte exceeds 128 is
cleared and any other is left alone. -/
def copy_alpha_array_to_QImage {R : Type} [LinearOrderedField R] [FloorRing R]
    (alphaArr : Image R) (qImg : Image Nat) (mask : Bool) : Image Nat :=
  forEachPixel alphaArr.width alphaArr.height
    (fun q x y =>
      let alpha := channelToByte (alphaArr.px x y)
      if mask then setPixel q x y (qRgba 0 0 0 alpha)
      else if alpha > 128 then setPixel q x y (qRgba 0 0 0 0)
      else q)
    qImg

/-- The function `MainWindow::saveAsImageFile`, up to the encoding of the file: the raster
that is saved. `convertToFormat(Format_ARGB32)` keeps the colour and opacity
of every pixel and is the identity here. -/
def saveAsImageFile {R : Type} [LinearOrderedField R] [FloorRing R]
    (mViewMode : ViewMode) (mImages : ViewMode → Image Nat) (alphaImage : Image R) :
    Image Nat :=
  match mViewMode with
  | ViewMode.VM_IMAGE =>
    copy_alpha_array_to_QImage alphaImage (mImages ViewMode.VM_IMAGE) false
  | m => mImages m

/-- A 2 x 1 source raster (opaque red, opaque green) for the export
examples. -/
def sampleImages (_ : ViewMode) : Image Nat :=
  ⟨2, 1, fun x _ => if x = 0 then qRgb 255 0 0 else qRgb 0 255 0⟩

/-- A 2 x 1 alpha buffer with the alpha bytes 200 and 50. -/
def sampleAlpha : Image ℚ :=
  ⟨2, 1, fun x _ => if x = 0 then 200 / 255 else 50 / 255⟩

/-- The bit `Qt::RightButton` of a button mask. -/
def RightButton : Nat := 2

/-- A click of the right button at (5,5): the press with only that button
held, then the release with no button held. -/
def rightClick : List QEvent :=
  [QEvent.MouseButtonPress RightButton ⟨5, 5⟩, QEvent.MouseButtonRelease 0 ⟨5, 5⟩]

/-! ## Theorems -/

/-- Moves of a rectangle drag: while the session is not initialized and an
image is loaded, moves make no engine call and touch only `mLastPos`. -/
theorem runEvents_moves_uninit (moves : List (Nat × QPoint)) (tl : List QEvent) :
    ∀ w : MainWindow, w.imageNull = false → w.mInitialized = false →
      ∃ q, runEvents w (moves.map (fun m => QEvent.MouseMove m.1 m.2) ++ tl)
        = runEvents { w with mLastPos := q } tl := by
  induction moves with
  | nil => intro w _ _; exact ⟨w.mLastPos, rfl⟩
  | cons m ms ih =>
    intro w hi hu
    obtain ⟨q, hq⟩ := ih { w with mLastPos := m.2 } hi hu
    refine ⟨q, ?_⟩
    simp only [List.map_cons, List.cons_append, runEvents, eventFilter, hi, hu] at hq ⊢
    simpa using hq

/-- A rectangle gesture from an uninitialized session comes down to its
release, handled with the start corner recorded at the press. -/
theorem rect_gesture_run (w : MainWindow) (b0 b1 : Nat) (p0 p1 : QPoint)
    (moves : List (Nat × QPoint))
    (himg : w.imageNull = false) (hun : w.mInitialized = false)
    (hb : leftHeld b0 = true) :
    ∃ q, runEvents w (gesture b0 p0 moves b1 p1)
      = runEvents { w with mStartPos := p0, mLastPos := q,
                           mSelectionMode := SelectionMode.SM_RECT }
          [QEvent.MouseButtonRelease b1 p1] := by
  obtain ⟨q, hq⟩ := runEvents_moves_uninit moves [QEvent.MouseButtonRelease b1 p1]
    { w with mStartPos := p0, mLastPos := p0, mSelectionMode := SelectionMode.SM_RECT }
    himg hun
  refine ⟨q, ?_⟩
  simp only [gesture, runEvents, eventFilter, himg, hun, hb] at hq ⊢
  simpa using hq

/-- C1: from any uninitialized session with an image loaded, a primary-button
press at p0, any moves and a release at p1 make exactly the two mutating
engine calls initialize(p0, p1) then fitGMMs (followed only by the buffer
reads of the view refresh) and leave the session initialized, with the mask
shown and no selection in progress. -/
theorem rect_gesture_initializes (w : MainWindow) (b0 b1 : Nat) (p0 p1 : QPoint)
    (moves : List (Nat × QPoint))
    (himg : w.imageNull = false) (hun : w.mInitialized = false)
    (hb : leftHeld b0 = true) :
    mutatingCalls (runEvents w (gesture b0 p0 moves b1 p1)).2
        = [EngineCall.initializeRect p0.x p0.y p1.x p1.y, EngineCall.fitGMMs] ∧
      (runEvents w (gesture b0 p0 moves b1 p1)).2
        = [EngineCall.initializeRect p0.x p0.y p1.x p1.y, EngineCall.fitGMMs,
           EngineCall.getAlphaImage, EngineCall.getNLinksImage,
           EngineCall.getTLinksImage, EngineCall.getGMMsImage] ∧
      (runEvents w (gesture b0 p0 moves b1 p1)).1.mInitialized = true ∧
      (runEvents w (gesture b0 p0 moves b1 p1)).1.mShowMask = true ∧
      (runEvents w (gesture b0 p0 moves b1 p1)).1.mSelectionMode
        = SelectionMode.SM_NONE := by
  obtain ⟨q, hrun⟩ := rect_gesture_run w b0 b1 p0 p1 moves himg hun hb
  rw [hrun]
  simp [runEvents, eventFilter, himg, hun, updateImages, mutatingCalls,
    EngineCall.isMutating]

/-- Witness for C1: press (10,10) with the left button, move to (50,50),
release there, starting from a freshly loaded session. -/
theorem rect_gesture_initializes_witness :
    freshSession.imageNull = false ∧ freshSession.mInitialized = false ∧
    leftHeld 1 = true ∧
    mutatingCalls (runEvents freshSession
        (gesture 1 ⟨10, 10⟩ [(1, ⟨50, 50⟩)] 0 ⟨50, 50⟩)).2
      = [EngineCall.initializeRect 10 10 50 50, EngineCall.fitGMMs] ∧
    (runEvents freshSession (gesture 1 ⟨10, 10⟩ [(1, ⟨50, 50⟩)] 0 ⟨50, 50⟩)).1.mInitialized
      = true :=
  ⟨rfl, rfl, rfl,
    (rect_gesture_initializes freshSession 1 0 ⟨10, 10⟩ ⟨50, 50⟩ [(1, ⟨50, 50⟩)]
      rfl rfl rfl).1,
    (rect_gesture_initializes freshSession 1 0 ⟨10, 10⟩ ⟨50, 50⟩ [(1, ⟨50, 50⟩)]
      rfl rfl rfl).2.2.1⟩

/-- The trimap updates of a stroke are all mutating calls. -/
theorem mutatingCalls_paintTrimap (mode : SelectionMode) (poses : List QPoint) :
    mutatingCalls (paintTrimap mode poses) = paintTrimap mode poses := by
  induction poses with
  | nil => rfl
  | cons p ps ih =>
    simp only [mutatingCalls, paintTrimap, List.map_cons] at ih ⊢
    rw [List.filter_cons_of_pos (by rfl), ih]

/-- The buffer reads of a view refresh contain no mutating call. -/
theorem mutatingCalls_updateImages (w : MainWindow) :
    mutatingCalls (updateImages w) = [] := by
  unfold updateImages mutatingCalls
  cases w.mShowMask <;> rfl

/-- Mutating calls of a concatenation. -/
theorem mutatingCalls_append (a b : List EngineCall) :
    mutatingCalls (a ++ b) = mutatingCalls a ++ mutatingCalls b := by
  simp [mutatingCalls]

/-- C2: in an initialized session a release at q appends q to the recorded
positions, then submits one setTrimap per recorded position, in recording
order, on the square of radius 2 around it, labelled Foreground in a
PaintForeground gesture and Background in a PaintBackground gesture, then one
refineOnce, then one buildImages (only buffer reads follow), and ends with no
selection in progress; a left press at (20,20) and a release at (21,21)
submit exactly the two Foreground squares around these points. -/
theorem paint_release_submits (w : MainWindow) (b : Nat) (q : QPoint)
    (himg : w.imageNull = false) (hin : w.mInitialized = true) :
    (eventFilter w (QEvent.MouseButtonRelease b q)).1.mPaintingPoses
        = w.mPaintingPoses ++ [q] ∧
      (w.mSelectionMode = SelectionMode.SM_PAINT_FG →
        mutatingCalls (eventFilter w (QEvent.MouseButtonRelease b q)).2
          = (w.mPaintingPoses ++ [q]).map (squareUpdate TrimapValue.TrimapForeground)
              ++ [EngineCall.refineOnce, EngineCall.buildImages]) ∧
      (w.mSelectionMode = SelectionMode.SM_PAINT_BG →
        mutatingCalls (eventFilter w (QEvent.MouseButtonRelease b q)).2
          = (w.mPaintingPoses ++ [q]).map (squareUpdate TrimapValue.TrimapBackground)
              ++ [EngineCall.refineOnce, EngineCall.buildImages]) ∧
      (eventFilter w (QEvent.MouseButtonRelease b q)).2
        = paintTrimap w.mSelectionMode (w.mPaintingPoses ++ [q])
            ++ [EngineCall.refineOnce, EngineCall.buildImages]
            ++ updateImages w ∧
      (eventFilter w (QEvent.MouseButtonRelease b q)).1.mSelectionMode
        = SelectionMode.SM_NONE ∧
      mutatingCalls (runEvents w [QEvent.MouseButtonPress LeftButton ⟨20, 20⟩,
          QEvent.MouseButtonRelease b ⟨21, 21⟩]).2
        = [EngineCall.setTrimap 18 18 22 22 TrimapValue.TrimapForeground,
           EngineCall.setTrimap 19 19 23 23 TrimapValue.TrimapForeground,
           EngineCall.refineOnce, EngineCall.buildImages] := by
  have hcalls : (eventFilter w (QEvent.MouseButtonRelease b q)).2
      = paintTrimap w.mSelectionMode (w.mPaintingPoses ++ [q])
          ++ [EngineCall.refineOnce, EngineCall.buildImages] ++ updateImages w := by
    simp [eventFilter, himg, hin, updateImages]
  have hmut : mutatingCalls (eventFilter w (QEvent.MouseButtonRelease b q)).2
      = paintTrimap w.mSelectionMode (w.mPaintingPoses ++ [q])
          ++ [EngineCall.refineOnce, EngineCall.buildImages] := by
    rw [hcalls, mutatingCalls_append, mutatingCalls_append, mutatingCalls_paintTrimap,
      mutatingCalls_updateImages]
    simp [mutatingCalls, EngineCall.isMutating]
  refine ⟨by simp [eventFilter, himg, hin], ?_, ?_, hcalls,
    by simp [eventFilter, himg, hin], ?_⟩
  · intro hfg
    rw [hmut, hfg]
    simp [paintTrimap, squareUpdate]
  · intro hbg
    rw [hmut, hbg]
    simp [paintTrimap, squareUpdate]
  · have hl : leftHeld LeftButton = true := rfl
    simp only [runEvents, eventFilter, himg, hin, hl]
    cases hm : w.mShowMask <;>
      simp [hm, updateImages, paintTrimap, mutatingCalls, EngineCall.isMutating]

/-- Witness for C2: the release at (21,21) that ends the stroke begun at
(20,20). -/
theorem paint_release_submits_witness :
    strokeSession.imageNull = false ∧ strokeSession.mInitialized = true ∧
    strokeSession.mSelectionMode = SelectionMode.SM_PAINT_FG ∧
    mutatingCalls (eventFilter strokeSession (QEvent.MouseButtonRelease 0 ⟨21, 21⟩)).2
      = [squareUpdate TrimapValue.TrimapForeground ⟨20, 20⟩,
         squareUpdate TrimapValue.TrimapForeground ⟨21, 21⟩,
         EngineCall.refineOnce, EngineCall.buildImages] :=
  ⟨rfl, rfl, rfl,
    (paint_release_submits strokeSession 0 ⟨21, 21⟩ rfl rfl).2.1 rfl⟩

/-- Counterexample to C3: press and release at (10,10) in a freshly loaded
session over a 100 x 100 image. The rectangle has zero width and height, so
the engine initialize fails by the specification, and yet the session is
initialized after the release, with fitGMMs called as well. -/
theorem degenerate_release_counterexample :
    initializeFails 100 100 10 10 10 10 = true ∧
    freshSession.mInitialized = false ∧
    initializeArgs (runEvents freshSession
      (gesture LeftButton ⟨10, 10⟩ [] 0 ⟨10, 10⟩)).2 = [(10, 10, 10, 10)] ∧
    (runEvents freshSession
      (gesture LeftButton ⟨10, 10⟩ [] 0 ⟨10, 10⟩)).1.mInitialized = true := by
  refine ⟨by decide, rfl, rfl, rfl⟩

/-- C3 as amended: in an uninitialized session with an image loaded, a
rectangle gesture (left press at p0, any moves, release at p1) whose
rectangle is degenerate or out of the bounds of the image, so that the engine
initialize fails on it, still makes the session initialized: exactly one
initialize call is made, on that failing rectangle, then fitGMMs, nothing of
their outcome is read, and the session ends initialized with the mask shown
and no selection in progress. -/
theorem failed_rect_gesture_still_initializes (w : MainWindow) (b0 b1 : Nat)
    (p0 p1 : QPoint) (moves : List (Nat × QPoint)) (width height : Int)
    (himg : w.imageNull = false) (hun : w.mInitialized = false)
    (hb : leftHeld b0 = true)
    (hfail : initializeFails width height p0.x p0.y p1.x p1.y = true) :
    (initializeArgs (runEvents w (gesture b0 p0 moves b1 p1)).2).map
        (fun a => initializeFails width height a.1 a.2.1 a.2.2.1 a.2.2.2) = [true] ∧
      mutatingCalls (runEvents w (gesture b0 p0 moves b1 p1)).2
        = [EngineCall.initializeRect p0.x p0.y p1.x p1.y, EngineCall.fitGMMs] ∧
      (runEvents w (gesture b0 p0 moves b1 p1)).1.mInitialized = true ∧
      (runEvents w (gesture b0 p0 moves b1 p1)).1.mShowMask = true ∧
      (runEvents w (gesture b0 p0 moves b1 p1)).1.mSelectionMode
        = SelectionMode.SM_NONE := by
  obtain ⟨q, hrun⟩ := rect_gesture_run w b0 b1 p0 p1 moves himg hun hb
  have hargs : initializeArgs (runEvents w (gesture b0 p0 moves b1 p1)).2
      = [(p0.x, p0.y, p1.x, p1.y)] := by
    rw [hrun]
    simp [runEvents, eventFilter, himg, hun, updateImages, initializeArgs]
  refine ⟨?_, ?_⟩
  · rw [hargs]
    simp [hfail]
  · rw [hrun]
    simp [runEvents, eventFilter, himg, hun, updateImages, mutatingCalls,
      EngineCall.isMutating]

/-- Witness for the amended C3: a left press and a release at (10,10) in a
freshly loaded session over a 100 x 100 image, a rectangle of zero width and
height. -/
theorem failed_rect_gesture_still_initializes_witness :
    freshSession.imageNull = false ∧ freshSession.mInitialized = false ∧
    leftHeld LeftButton = true ∧
    initializeFails 100 100 10 10 10 10 = true ∧
    mutatingCalls (runEvents freshSession
        (gesture LeftButton ⟨10, 10⟩ [] 0 ⟨10, 10⟩)).2
      = [EngineCall.initializeRect 10 10 10 10, EngineCall.fitGMMs] ∧
    (runEvents freshSession
        (gesture LeftButton ⟨10, 10⟩ [] 0 ⟨10, 10⟩)).1.mInitialized = true :=
  ⟨rfl, rfl, rfl, by decide,
    (failed_rect_gesture_still_initializes freshSession LeftButton 0 ⟨10, 10⟩ ⟨10, 10⟩ []
      100 100 rfl rfl rfl (by decide)).2.1,
    (failed_rect_gesture_still_initializes freshSession LeftButton 0 ⟨10, 10⟩ ⟨10, 10⟩ []
      100 100 rfl rfl rfl (by decide)).2.2.1⟩

/-- C4: with no image loaded, a press, a move and a release, with any button
mask and at any position, leave every field of the window as it was and make
no engine call. -/
theorem pointer_events_without_image (w : MainWindow) (b : Nat) (p : QPoint)
    (hnull : w.imageNull = true) :
    eventFilter w (QEvent.MouseButtonPress b p) = (w, []) ∧
      eventFilter w (QEvent.MouseMove b p) = (w, []) ∧
      eventFilter w (QEvent.MouseButtonRelease b p) = (w, []) := by
  simp [eventFilter, hnull]

/-- Witness for C4: a left press, move and release at (10,10) on the
newly constructed window. -/
theorem pointer_events_without_image_witness :
    newWindow.imageNull = true ∧
    eventFilter newWindow (QEvent.MouseButtonPress LeftButton ⟨10, 10⟩) = (newWindow, []) ∧
    eventFilter newWindow (QEvent.MouseMove LeftButton ⟨10, 10⟩) = (newWindow, []) ∧
    eventFilter newWindow (QEvent.MouseButtonRelease LeftButton ⟨10, 10⟩)
      = (newWindow, []) :=
  ⟨rfl, pointer_events_without_image newWindow LeftButton ⟨10, 10⟩ rfl⟩

/-- Counterexample to C5: on the newly constructed window, with no image
loaded, triggering the view-mode action of the GMM mask changes the view
mode. -/
theorem view_mode_without_image_counterexample :
    newWindow.imageNull = true ∧
    newWindow.mViewMode = ViewMode.VM_IMAGE ∧
    (changeViewModeAct newWindow
      (QAction.mViewModeActs ViewMode.VM_GMM_MASK)).1.mViewMode = ViewMode.VM_GMM_MASK ∧
    (changeViewModeAct newWindow
      (QAction.mViewModeActs ViewMode.VM_GMM_MASK)).1 ≠ newWindow := by
  refine ⟨rfl, rfl, rfl, by decide⟩

/-- C5 as amended: with no image loaded every action of the edit group
(refine once, fit GMMs, refine, abort, show mask) leaves every field of the
window as it was and makes no engine call; a view-mode action makes no engine
call and leaves every field but the view mode as it was, and the view mode
becomes the one the action selects. -/
theorem commands_without_image (w : MainWindow) (act : QAction) (m : ViewMode)
    (hnull : w.imageNull = true) :
    triggerEditAct w act = (w, []) ∧
      (changeViewModeAct w act).2 = [] ∧
      { (changeViewModeAct w act).1 with mViewMode := w.mViewMode } = w ∧
      (changeViewModeAct w (QAction.mViewModeActs m)).1.mViewMode = m := by
  refine ⟨by simp [triggerEditAct, hnull], ?_, ?_, ?_⟩
  · unfold changeViewModeAct
    split <;> rfl
  · unfold changeViewModeAct
    split <;> rfl
  · cases m <;> rfl

/-- Witness for the amended C5: the show-mask action and the GMM view-mode
action on the newly constructed window. -/
theorem commands_without_image_witness :
    newWindow.imageNull = true ∧
    triggerEditAct newWindow QAction.mShowMaskAct = (newWindow, []) ∧
    (changeViewModeAct newWindow
      (QAction.mViewModeActs ViewMode.VM_GMM_MASK)).1.mViewMode = ViewMode.VM_GMM_MASK :=
  ⟨rfl,
    (commands_without_image newWindow QAction.mShowMaskAct ViewMode.VM_GMM_MASK rfl).1,
    (commands_without_image newWindow QAction.mShowMaskAct ViewMode.VM_GMM_MASK rfl).2.2.2⟩

/-- Counterexample to C6: dragging from (50,50) to (10,10) hands
initialize the corners (50,50),(10,10) as they were given, which is not the
normalized rectangle (10,10),(50,50) and not what the drag from (10,10) to
(50,50) hands over. -/
theorem reversed_drag_counterexample :
    initializeArgs (runEvents freshSession
      (gesture LeftButton ⟨50, 50⟩ [] 0 ⟨10, 10⟩)).2 = [(50, 50, 10, 10)] ∧
    normalizedRect ⟨50, 50⟩ ⟨10, 10⟩ = (10, 10, 50, 50) ∧
    initializeArgs (runEvents freshSession
      (gesture LeftButton ⟨50, 50⟩ [] 0 ⟨10, 10⟩)).2
      ≠ [normalizedRect ⟨50, 50⟩ ⟨10, 10⟩] ∧
    initializeArgs (runEvents freshSession
      (gesture LeftButton ⟨50, 50⟩ [] 0 ⟨10, 10⟩)).2
      ≠ initializeArgs (runEvents freshSession
          (gesture LeftButton ⟨10, 10⟩ [] 0 ⟨50, 50⟩)).2 := by
  refine ⟨rfl, rfl, by decide, by decide⟩

/-- C6 as amended: the rectangle handed to initialize has the press position
as its first corner and the release position as its second, in the order of
the gesture; it is the normalized rectangle when the press is the upper-left
corner (sx at most ex and sy at most ey). -/
theorem rect_corners_in_gesture_order (w : MainWindow) (b0 b1 : Nat) (s e : QPoint)
    (moves : List (Nat × QPoint))
    (himg : w.imageNull = false) (hun : w.mInitialized = false)
    (hb : leftHeld b0 = true) :
    initializeArgs (runEvents w (gesture b0 s moves b1 e)).2 = [(s.x, s.y, e.x, e.y)] ∧
      (s.x ≤ e.x → s.y ≤ e.y →
        initializeArgs (runEvents w (gesture b0 s moves b1 e)).2
          = [normalizedRect s e]) := by
  obtain ⟨q, hrun⟩ := rect_gesture_run w b0 b1 s e moves himg hun hb
  have h : initializeArgs (runEvents w (gesture b0 s moves b1 e)).2
      = [(s.x, s.y, e.x, e.y)] := by
    rw [hrun]
    simp [runEvents, eventFilter, himg, hun, updateImages, initializeArgs]
  refine ⟨h, fun hx hy => ?_⟩
  rw [h, normalizedRect, min_eq_left hx, min_eq_left hy, max_eq_right hx, max_eq_right hy]

/-- Witness for the amended C6: the drag from (10,10) over (30,30) to
(50,50) in a freshly loaded session. -/
theorem rect_corners_in_gesture_order_witness :
    freshSession.imageNull = false ∧ freshSession.mInitialized = false ∧
    leftHeld LeftButton = true ∧
    initializeArgs (runEvents freshSession
      (gesture LeftButton ⟨10, 10⟩ [(LeftButton, ⟨30, 30⟩)] 0 ⟨50, 50⟩)).2
      = [(10, 10, 50, 50)] :=
  ⟨rfl, rfl, rfl,
    (rect_corners_in_gesture_order freshSession LeftButton 0 ⟨10, 10⟩ ⟨50, 50⟩
      [(LeftButton, ⟨30, 30⟩)] rfl rfl rfl).1⟩

/-- The view-mode slot touches only the view mode. -/
theorem changeViewModeAct_fields (w : MainWindow) (act : QAction) :
    (changeViewModeAct w act).1.mInitialized = w.mInitialized ∧
      (changeViewModeAct w act).1.mPaintingPoses = w.mPaintingPoses ∧
      (changeViewModeAct w act).1.mSelectionMode = w.mSelectionMode := by
  unfold changeViewModeAct
  split <;> simp

/-- The edit slot touches neither the recorded positions, nor the selection
mode, nor the initialized flag. -/
theorem triggerEditAct_fields (w : MainWindow) (act : QAction) :
    (triggerEditAct w act).1.mInitialized = w.mInitialized ∧
      (triggerEditAct w act).1.mPaintingPoses = w.mPaintingPoses ∧
      (triggerEditAct w act).1.mSelectionMode = w.mSelectionMode := by
  unfold triggerEditAct
  split_ifs <;> simp

/-- The event filter preserves the invariant of the recorded positions. -/
theorem eventFilter_posesInv (w : MainWindow) (e : QEvent) (h : PosesInv w) :
    PosesInv (eventFilter w e).1 := by
  obtain ⟨h1, h2, h3⟩ := h
  cases e with
  | Paint => exact ⟨h1, h2, h3⟩
  | OtherEvent =>
    unfold eventFilter
    split_ifs <;> exact ⟨h1, h2, h3⟩
  | MouseButtonPress b p =>
    unfold eventFilter PosesInv
    simp only [reduceCtorEq, if_false]
    split_ifs <;> simp_all
  | MouseMove b p =>
    unfold eventFilter PosesInv
    simp only [reduceCtorEq, if_false]
    split_ifs <;> simp_all
  | MouseButtonRelease b p =>
    unfold eventFilter PosesInv
    simp only [reduceCtorEq, if_false]
    split_ifs <;> simp_all

/-- Every input preserves the invariant of the recorded positions. -/
theorem step_posesInv (w : MainWindow) (i : Input) (h : PosesInv w) :
    PosesInv (step w i).1 := by
  cases i with
  | event e => exact eventFilter_posesInv w e h
  | editAct act =>
    simp only [step]
    split_ifs
    · obtain ⟨a, b, c⟩ := triggerEditAct_fields
        { w with mShowMaskActChecked := !w.mShowMaskActChecked } act
      unfold PosesInv
      rw [a, b, c]
      exact h
    · obtain ⟨a, b, c⟩ := triggerEditAct_fields w act
      unfold PosesInv
      rw [a, b, c]
      exact h
  | viewModeAct act =>
    obtain ⟨a, b, c⟩ := changeViewModeAct_fields w act
    simp only [step]
    unfold PosesInv
    rw [a, b, c]
    exact h

/-- The invariant of the recorded positions holds along every run. -/
theorem run_posesInv (inputs : List Input) :
    ∀ w : MainWindow, PosesInv w → PosesInv (run w inputs) := by
  induction inputs with
  | nil => intro w h; exact h
  | cons i is ih =>
    intro w h
    exact ih (step w i).1 (step_posesInv w i h)

/-- Counterexample to C10: after the rectangle gesture (10,10)-(50,50) and a
foreground stroke pressed at (20,20) and released at (21,21), the selection
mode is back to None while the two positions of the stroke are still
recorded. -/
theorem stale_positions_counterexample :
    (run freshSession
      [Input.event (QEvent.MouseButtonPress LeftButton ⟨10, 10⟩),
       Input.event (QEvent.MouseButtonRelease 0 ⟨50, 50⟩),
       Input.event (QEvent.MouseButtonPress LeftButton ⟨20, 20⟩),
       Input.event (QEvent.MouseButtonRelease 0 ⟨21, 21⟩)]).mSelectionMode
      = SelectionMode.SM_NONE ∧
    (run freshSession
      [Input.event (QEvent.MouseButtonPress LeftButton ⟨10, 10⟩),
       Input.event (QEvent.MouseButtonRelease 0 ⟨50, 50⟩),
       Input.event (QEvent.MouseButtonPress LeftButton ⟨20, 20⟩),
       Input.event (QEvent.MouseButtonRelease 0 ⟨21, 21⟩)]).mPaintingPoses
      = [⟨20, 20⟩, ⟨21, 21⟩] := by
  refine ⟨rfl, rfl⟩

/-- C10 as amended: in every state reached from a freshly loaded session by
pointer events and commands, the recorded positions are non-empty only if the
session is initialized, hence only if the selection mode is None,
PaintForeground or PaintBackground: while a rectangle is dragged, and as long
as the session is uninitialized, no position is recorded; and during a paint
gesture at least the press position is. -/
theorem recorded_positions_invariant (inputs : List Input) :
    ((run freshSession inputs).mPaintingPoses ≠ [] →
        (run freshSession inputs).mInitialized = true ∧
        ((run freshSession inputs).mSelectionMode = SelectionMode.SM_NONE ∨
         (run freshSession inputs).mSelectionMode = SelectionMode.SM_PAINT_FG ∨
         (run freshSession inputs).mSelectionMode = SelectionMode.SM_PAINT_BG)) ∧
      ((run freshSession inputs).mSelectionMode = SelectionMode.SM_RECT →
        (run freshSession inputs).mPaintingPoses = []) ∧
      ((run freshSession inputs).mSelectionMode = SelectionMode.SM_PAINT_FG ∨
          (run freshSession inputs).mSelectionMode = SelectionMode.SM_PAINT_BG →
        (run freshSession inputs).mPaintingPoses ≠ []) := by
  have hfresh : PosesInv freshSession := by
    refine ⟨fun _ => rfl, fun _ => rfl, fun h => ?_⟩
    rcases h with h | h <;> exact absurd h (by decide)
  obtain ⟨h1, h2, h3⟩ := run_posesInv inputs freshSession hfresh
  refine ⟨fun hne => ?_, fun hr => h1 (h2 hr), fun hp => (h3 hp).2⟩
  have hinit : (run freshSession inputs).mInitialized = true := by
    cases hi : (run freshSession inputs).mInitialized
    · exact absurd (h1 hi) hne
    · rfl
  refine ⟨hinit, ?_⟩
  cases hm : (run freshSession inputs).mSelectionMode
  · exact Or.inl rfl
  · rw [h2 hm] at hinit
    exact absurd hinit (by decide)
  · exact Or.inr (Or.inr rfl)
  · exact Or.inr (Or.inl rfl)

/-- One row of the pixel loop: the pixels left of the bound in that row are
rewritten, each from its own old value. -/
theorem rowLoop_px {α : Type} (body : Image α → Nat → Nat → Image α)
    (g : Nat → Nat → α → α)
    (hbody : ∀ a x y i j, (body a x y).px i j
      = if i = x ∧ j = y then g x y (a.px x y) else a.px i j)
    (y n : Nat) (a : Image α) :
    ∀ i j, ((List.range n).foldl (fun acc x => body acc x y) a).px i j
      = if i < n ∧ j = y then g i y (a.px i j) else a.px i j := by
  induction n with
  | zero => intro i j; simp
  | succ n ih =>
    intro i j
    rw [List.range_succ, List.foldl_append, List.foldl_cons, List.foldl_nil, hbody,
      ih n y, ih i j]
    by_cases hi : i = n
    · subst hi
      by_cases hj : j = y
      · subst hj
        simp
      · simp [hj]
    · have h1 : (i < n + 1) = (i < n) := propext ⟨fun h => by omega, fun h => by omega⟩
      simp [hi, h1]

/-- The whole pixel loop: every pixel inside the w x h frame is rewritten
from its own old value, every other pixel is kept. -/
theorem forEachPixel_px {α : Type} (body : Image α → Nat → Nat → Image α)
    (g : Nat → Nat → α → α)
    (hbody : ∀ a x y i j, (body a x y).px i j
      = if i = x ∧ j = y then g x y (a.px x y) else a.px i j)
    (w h : Nat) (a : Image α) :
    ∀ i j, (forEachPixel w h body a).px i j
      = if i < w ∧ j < h then g i j (a.px i j) else a.px i j := by
  unfold forEachPixel
  induction h with
  | zero => intro i j; simp
  | succ h ih =>
    intro i j
    rw [List.range_succ, List.foldl_append, List.foldl_cons, List.foldl_nil,
      rowLoop_px body g hbody, ih i j]
    by_cases hj : j = h
    · subst hj
      simp
    · have h1 : (j < h + 1) = (j < h) := propext ⟨fun k => by omega, fun k => by omega⟩
      simp [hj, h1]

/-- Pixels of `copy_alpha_array_to_QImage` without `mask`: inside the frame
of the alpha buffer a pixel is cleared when its alpha byte exceeds 128 and
kept otherwise; outside it is kept. -/
theorem copy_alpha_array_to_QImage_px {R : Type} [LinearOrderedField R] [FloorRing R]
    (alphaArr : Image R) (qImg : Image Nat) (i j : Nat) :
    (copy_alpha_array_to_QImage alphaArr qImg false).px i j
      = if i < alphaArr.width ∧ j < alphaArr.height then
          (if channelToByte (alphaArr.px i j) > 128 then qRgba 0 0 0 0 else qImg.px i j)
        else qImg.px i j := by
  unfold copy_alpha_array_to_QImage
  rw [forEachPixel_px _
    (fun x y old => if channelToByte (alphaArr.px x y) > 128 then qRgba 0 0 0 0 else old)]
  intro a x y i j
  by_cases hbig : channelToByte (alphaArr.px x y) > 128
  · simp [hbig, setPixel]
  · by_cases hij : i = x ∧ j = y
    · obtain ⟨rfl, rfl⟩ := hij
      simp [hbig]
    · simp [hbig, hij]

/-- Pixels of `copy_image_array_to_QImage`: inside the frame each is the
opaque colour of the three converted channels. -/
theorem copy_image_array_to_QImage_px {R : Type} [LinearOrderedField R] [FloorRing R]
    (imgArr : Image (Color R)) (qImg : Image Nat) (i j : Nat) :
    (copy_image_array_to_QImage imgArr qImg).px i j
      = if i < imgArr.width ∧ j < imgArr.height then
          qRgb (channelToByte (imgArr.px i j).r) (channelToByte (imgArr.px i j).g)
            (channelToByte (imgArr.px i j).b)
        else qImg.px i j := by
  unfold copy_image_array_to_QImage
  rw [forEachPixel_px _
    (fun x y _ => qRgb (channelToByte (imgArr.px x y).r) (channelToByte (imgArr.px x y).g)
      (channelToByte (imgArr.px x y).b))]
  intro a x y i j
  simp [setPixel]

/-- Pixels of `create_image_array_from_QImage`: inside the frame each channel
is the byte of the image divided by 255. -/
theorem create_image_array_from_QImage_px {R : Type} [LinearOrderedField R]
    (img : Image Nat) (i j : Nat) (hi : i < img.width) (hj : j < img.height) :
    ((create_image_array_from_QImage img : Image (Color R)).px i j).r
        = byteToChannel (qRed (img.px i j)) ∧
      ((create_image_array_from_QImage img : Image (Color R)).px i j).g
        = byteToChannel (qGreen (img.px i j)) ∧
      ((create_image_array_from_QImage img : Image (Color R)).px i j).b
        = byteToChannel (qBlue (img.px i j)) := by
  unfold create_image_array_from_QImage
  rw [forEachPixel_px _
    (fun x y _ => (⟨byteToChannel (qRed (img.px x y)), byteToChannel (qGreen (img.px x y)),
      byteToChannel (qBlue (img.px x y))⟩ : Color R))]
  · simp [hi, hj]
  · intro a x y i j
    simp [setPixel]

/-- Truncation of a non-negative value is its floor. -/
theorem truncToInt_of_nonneg {R : Type} [LinearOrderedField R] [FloorRing R] (v : R)
    (h : 0 ≤ v) : truncToInt v = Int.floor v := by
  simp [truncToInt, h]

/-- The byte of a channel value that is a byte over 255 is that byte. -/
theorem channelToByte_byteToChannel {R : Type} [LinearOrderedField R] [FloorRing R]
    (b : Nat) : channelToByte (byteToChannel b : R) = (b : Int) := by
  have h : (b : R) / 255 * 255 = ((b : Int) : R) := by
    rw [div_mul_cancel₀ _ (by norm_num : (255 : R) ≠ 0)]
    simp
  unfold channelToByte byteToChannel
  rw [h, truncToInt_of_nonneg _ (by exact_mod_cast Int.natCast_nonneg b), Int.floor_intCast]

/-- C7: export under the base-image view mode. For every pixel of the frame,
with a the alpha byte truncate(alpha * 255): if a exceeds 128 the exported
pixel is the fully transparent qRgba(0,0,0,0), whose alpha channel is 0; if a
is at most 128, 128 itself included, the exported pixel is the pixel of the
source raster, colour and opacity unchanged. -/
theorem export_threshold {R : Type} [LinearOrderedField R] [FloorRing R]
    (mImages : ViewMode → Image Nat) (alphaImage : Image R) (x y : Nat)
    (hx : x < alphaImage.width) (hy : y < alphaImage.height) :
    (channelToByte (alphaImage.px x y) > 128 →
        (saveAsImageFile ViewMode.VM_IMAGE mImages alphaImage).px x y = qRgba 0 0 0 0 ∧
        qAlpha ((saveAsImageFile ViewMode.VM_IMAGE mImages alphaImage).px x y) = 0) ∧
      (channelToByte (alphaImage.px x y) ≤ 128 →
        (saveAsImageFile ViewMode.VM_IMAGE mImages alphaImage).px x y
          = (mImages ViewMode.VM_IMAGE).px x y) ∧
      (channelToByte (alphaImage.px x y) = 128 →
        (saveAsImageFile ViewMode.VM_IMAGE mImages alphaImage).px x y
          = (mImages ViewMode.VM_IMAGE).px x y) := by
  have hpx := copy_alpha_array_to_QImage_px alphaImage (mImages ViewMode.VM_IMAGE) x y
  simp only [hx, hy, and_self, if_true] at hpx
  refine ⟨fun h => ?_, fun h => ?_, fun h => ?_⟩
  · have he : (saveAsImageFile ViewMode.VM_IMAGE mImages alphaImage).px x y
        = qRgba 0 0 0 0 := by
      simp only [saveAsImageFile]
      rw [hpx, if_pos h]
    refine ⟨he, ?_⟩
    rw [he]
    decide
  · simp only [saveAsImageFile]
    rw [hpx, if_neg (not_lt.2 h)]
  · simp only [saveAsImageFile]
    rw [hpx, if_neg (by rw [h]; decide)]

/-- The alpha bytes of the sample buffer are 200 and 50. -/
theorem sampleAlpha_bytes :
    channelToByte (sampleAlpha.px 0 0) = 200 ∧ channelToByte (sampleAlpha.px 1 0) = 50 := by
  have h200 : ((200 : ℚ) / 255) = byteToChannel 200 := by simp [byteToChannel]
  have h50 : ((50 : ℚ) / 255) = byteToChannel 50 := by simp [byteToChannel]
  constructor
  · show channelToByte ((200 : ℚ) / 255) = 200
    rw [h200, channelToByte_byteToChannel]
    rfl
  · show channelToByte ((50 : ℚ) / 255) = 50
    rw [h50, channelToByte_byteToChannel]
    rfl

/-- Witness for C7: a 2 x 1 raster exported with the alpha bytes 200 and 50.
The first pixel comes out fully transparent, the second is the opaque green
of the source. -/
theorem export_threshold_witness :
    (0 < sampleAlpha.width ∧ 0 < sampleAlpha.height) ∧
    (1 < sampleAlpha.width ∧ 0 < sampleAlpha.height) ∧
    channelToByte (sampleAlpha.px 0 0) = 200 ∧
    channelToByte (sampleAlpha.px 1 0) = 50 ∧
    qAlpha ((saveAsImageFile ViewMode.VM_IMAGE sampleImages sampleAlpha).px 0 0) = 0 ∧
    (saveAsImageFile ViewMode.VM_IMAGE sampleImages sampleAlpha).px 1 0 = qRgb 0 255 0 :=
  ⟨⟨by decide, by decide⟩, ⟨by decide, by decide⟩, sampleAlpha_bytes.1, sampleAlpha_bytes.2,
    ((export_threshold sampleImages sampleAlpha 0 0 (by decide) (by decide)).1
      (by rw [sampleAlpha_bytes.1]; decide)).2,
    (export_threshold sampleImages sampleAlpha 1 0 (by decide) (by decide)).2.1
      (by rw [sampleAlpha_bytes.2]; decide)⟩

/-- C8: the channel conversions round-trip within 1/255. For v in [0,1] the
byte truncate(v * 255) written by `copy_image_array_to_QImage` lies in 0..255
and, divided by 255, is within 1/255 of v; for a byte b in 0..255 the byte of
b/255 (the channel value made by `create_image_array_from_QImage`) differs
from b by at most 1; and 0 gives 0, 1 gives 255, 128/255 gives 128. -/
theorem channel_round_trip {R : Type} [LinearOrderedField R] [FloorRing R]
    (v : R) (b : Nat) (h0 : 0 ≤ v) (h1 : v ≤ 1) (_hb : b ≤ 255) :
    0 ≤ channelToByte v ∧ channelToByte v ≤ 255 ∧
      abs ((channelToByte v : R) / 255 - v) ≤ 1 / 255 ∧
      abs (channelToByte (byteToChannel b : R) - (b : Int)) ≤ 1 ∧
      channelToByte (0 : R) = 0 ∧ channelToByte (1 : R) = 255 ∧
      channelToByte ((128 : R) / 255) = 128 := by
  have hv : (0 : R) ≤ v * 255 := mul_nonneg h0 (by norm_num)
  have hc : channelToByte v = Int.floor (v * 255) := truncToInt_of_nonneg _ hv
  have hle : ((Int.floor (v * 255) : Int) : R) ≤ v * 255 := Int.floor_le _
  have hlt : v * 255 < ((Int.floor (v * 255) : Int) : R) + 1 := Int.lt_floor_add_one _
  have h255 : channelToByte ((255 : Nat) / 255 : R) = ((255 : Nat) : Int) :=
    channelToByte_byteToChannel 255
  have h128 : channelToByte ((128 : Nat) / 255 : R) = ((128 : Nat) : Int) :=
    channelToByte_byteToChannel 128
  refine ⟨?_, ?_, ?_, ?_, ?_, ?_, ?_⟩
  · rw [hc]
    exact Int.floor_nonneg.2 hv
  · rw [hc]
    have : ((Int.floor (v * 255) : Int) : R) ≤ ((255 : Int) : R) := by
      push_cast
      linarith
    exact_mod_cast this
  · rw [hc, abs_le]
    constructor <;> linarith
  · rw [channelToByte_byteToChannel]
    simp
  · simp [channelToByte, truncToInt]
  · simpa using h255
  · simpa using h128

/-- Witness for C8: the channel value 1/2, whose byte is 127, and the byte
128. -/
theorem channel_round_trip_witness :
    (0 : ℚ) ≤ 1 / 2 ∧ (1 / 2 : ℚ) ≤ 1 ∧ 128 ≤ 255 ∧
    abs ((channelToByte (1 / 2 : ℚ) : ℚ) / 255 - 1 / 2) ≤ 1 / 255 ∧
    abs (channelToByte (byteToChannel 128 : ℚ) - ((128 : Nat) : Int)) ≤ 1 :=
  ⟨by norm_num, by norm_num, by norm_num,
    (channel_round_trip (1 / 2 : ℚ) 128 (by norm_num) (by norm_num) (by norm_num)).2.2.1,
    (channel_round_trip (1 / 2 : ℚ) 128 (by norm_num) (by norm_num) (by norm_num)).2.2.2.1⟩

/-- C9: `distance2` is a total function of two colours with arbitrary
channel values and equals the sum over the three channels of the squared
differences. -/
theorem distance2_eq_sum_sq {R : Type} [CommRing R] (r1 g1 b1 r2 g2 b2 : R) :
    distance2 (⟨r1, g1, b1⟩ : Color R) ⟨r2, g2, b2⟩
      = (r1 - r2) ^ 2 + (g1 - g2) ^ 2 + (b1 - b2) ^ 2 := by
  unfold distance2
  ring

/-- C11: for every window state and every view mode m, the view-mode action
of m changes the view mode to m and nothing else (selection mode, rectangle
endpoints, recorded positions, the initialized, refining and show-mask flags
are as before) and makes no engine call; triggering it twice gives the same
state as triggering it once. -/
theorem changeViewModeAct_only_view_mode (w : MainWindow) (m : ViewMode) :
    changeViewModeAct w (QAction.mViewModeActs m) = ({ w with mViewMode := m }, []) ∧
      (changeViewModeAct w (QAction.mViewModeActs m)).1.mSelectionMode
        = w.mSelectionMode ∧
      (changeViewModeAct w (QAction.mViewModeActs m)).1.mStartPos = w.mStartPos ∧
      (changeViewModeAct w (QAction.mViewModeActs m)).1.mEndPos = w.mEndPos ∧
      (changeViewModeAct w (QAction.mViewModeActs m)).1.mLastPos = w.mLastPos ∧
      (changeViewModeAct w (QAction.mViewModeActs m)).1.mPaintingPoses
        = w.mPaintingPoses ∧
      (changeViewModeAct w (QAction.mViewModeActs m)).1.mInitialized = w.mInitialized ∧
      (changeViewModeAct w (QAction.mViewModeActs m)).1.mRefining = w.mRefining ∧
      (changeViewModeAct w (QAction.mViewModeActs m)).1.mShowMask = w.mShowMask ∧
      changeViewModeAct (changeViewModeAct w (QAction.mViewModeActs m)).1
          (QAction.mViewModeActs m)
        = changeViewModeAct w (QAction.mViewModeActs m) := by
  have h : ∀ v : MainWindow,
      changeViewModeAct v (QAction.mViewModeActs m) = ({ v with mViewMode := m }, []) := by
    intro v
    cases m <;> rfl
  rw [h w]
  refine ⟨rfl, rfl, rfl, rfl, rfl, rfl, rfl, rfl, rfl, ?_⟩
  rw [h]

/-- The part of C12 that the code keeps: in an uninitialized session a press
without the left button changes nothing, so a selection mode None stays
None. -/
theorem press_without_left_uninit (w : MainWindow) (b : Nat) (p : QPoint)
    (hun : w.mInitialized = false) (hb : leftHeld b = false) :
    eventFilter w (QEvent.MouseButtonPress b p) = (w, []) := by
  unfold eventFilter
  simp [hun, hb]

/-- C12, the code at a right-button click on a freshly loaded session: the
press leaves the session as it was, selection mode None, and the release,
with no rectangle started, still calls initialize on the stale start corner
(0,0) and the release position (5,5), then fitGMMs, and the session ends
initialized with the mask shown. -/
theorem right_click_initializes :
    leftHeld RightButton = false ∧
    freshSession.mInitialized = false ∧
    freshSession.mShowMask = false ∧
    freshSession.mSelectionMode = SelectionMode.SM_NONE ∧
    eventFilter freshSession (QEvent.MouseButtonPress RightButton ⟨5, 5⟩)
      = (freshSession, []) ∧
    mutatingCalls (runEvents freshSession rightClick).2
      = [EngineCall.initializeRect 0 0 5 5, EngineCall.fitGMMs] ∧
    (runEvents freshSession rightClick).1.mInitialized = true ∧
    (runEvents freshSession rightClick).1.mShowMask = true := by
  refine ⟨rfl, rfl, rfl, rfl, rfl, rfl, rfl, rfl⟩

end GraphCutQt
